import Mathlib

/-!
Shallow embedding of `superset/connectors/vaex/views.py`: the admin-console
view classes for the Vaex connector (columns, metrics, clusters, datasources)
and the metadata-refresh endpoints.  Pure validation logic is embedded as
functions returning `Except`; the side-effecting hooks and the refresh loop
are embedded as functions producing an explicit trace of effects.  External
collaborators (the JSON parser `json.loads`, the per-cluster refresh call)
are passed in as oracles.
-/

/-- A JSON value, the result of a successful `json.loads`.  Objects keep the
insertion order of their key/value pairs; a repeated key is resolved by the
last binding, as in a Python dict built by the parser. -/
inductive JValue where
  | null : JValue
  | bool (b : Bool) : JValue
  | num (n : Int) : JValue
  | str (s : String) : JValue
  | arr (xs : List JValue) : JValue
  | obj (kvs : List (String × JValue)) : JValue

/-- Key lookup in a parsed JSON object: the last binding wins, matching the
Python dict produced by `json.loads` on repeated keys. -/
def jlookup (k : String) : List (String × JValue) → Option JValue
  | [] => none
  | (k2, v) :: rest =>
    match jlookup k rest with
    | some v2 => some v2
    | none => if k2 = k then some v else none

/-- Python equality of a JSON-derived value against a Python `str`: true
exactly when the value is that string (no JSON value of another type compares
equal to a string in Python). -/
def JValue.eqStr : JValue → String → Bool
  | .str s, t => s = t
  | _, _ => false

/-- A Column record as the column view sees it.  Modelled from the spec:
the ORM model class `VaexColumn` is outside this file; only the two fields
the view hooks read are kept. -/
structure VaexColumn where
  column_name : String
  dimension_spec_json : Option String
deriving DecidableEq, Repr

/-- The distinct validation failures of `VaexColumnInlineView.pre_update`,
each carrying the data its `ValueError` message reports. -/
inductive SpecError where
  | invalidJson (msg : String) : SpecError
  | notAnObject : SpecError
  | missingOutputName : SpecError
  | missingDimension : SpecError
  | outputNameMismatch (outputName : JValue) (columnName : String) : SpecError

/-- `VaexColumnInlineView.pre_update`: validates the optional dimension-spec
JSON string before an update is accepted.  `parse` is the `json.loads`
oracle; a Python falsy string (absent or empty) skips validation. -/
def VaexColumnInlineView.pre_update (parse : String → Except String JValue)
    (col : VaexColumn) : Except SpecError Unit :=
  match col.dimension_spec_json with
  | none => .ok ()
  | some s =>
    if s = "" then .ok ()
    else
      match parse s with
      | .error e => .error (.invalidJson e)
      | .ok v =>
        match v with
        | .obj kvs =>
          match jlookup "outputName" kvs with
          | none => .error .missingOutputName
          | some outName =>
            match jlookup "dimension" kvs with
            | none => .error .missingDimension
            | some _ =>
              if outName.eqStr col.column_name then .ok ()
              else .error (.outputNameMismatch outName col.column_name)
        | _ => .error .notAnObject

/-- The column view defines no `pre_add`; the framework hook it inherits is a
no-op.  Modelled from the spec: the inherited default (outside this file)
performs no validation, which is the asymmetry the spec flags in its notes. -/
def VaexColumnInlineView.pre_add (_col : VaexColumn) : Except SpecError Unit :=
  .ok ()

/-- A Cluster record as the refresh endpoint and the cluster view see it.
Modelled from the spec: the ORM model class `VaexCluster` is outside this
file; only the fields read by this module are kept (`perm` is the cluster's
permission string used by `merge_perm`). -/
structure VaexCluster where
  cluster_name : String
  perm : String
  metadata_last_refreshed : Option Nat
deriving DecidableEq, Repr

/-- One observable effect of the refresh endpoint: the external refresh call
on a cluster, a flash message (info on success, danger on failure), the
exception log, the timestamp assignment, the session commit, and the final
redirect. -/
inductive Effect where
  | refreshCall (clusterName : String) (refreshAll : Bool) : Effect
  | setTimestamp (clusterName : String) (time : Nat) : Effect
  | flashInfo (msg : String) : Effect
  | flashDanger (msg : String) : Effect
  | logException (err : String) : Effect
  | commit : Effect
  | redirect (target : String) : Effect
deriving DecidableEq, Repr

/-- The danger flash queued when a cluster's refresh call raises: Python
format string "Error while processing cluster \x27...\x27\n..." applied to
the cluster name and the message extracted from the exception. -/
def refreshErrorMsg (clusterName err : String) : String :=
  "Error while processing cluster \x27" ++ clusterName ++ "\x27\n" ++ err

/-- The info flash queued after a cluster refresh succeeds. -/
def refreshSuccessMsg (clusterName : String) : String :=
  "Refreshed metadata from cluster [" ++ clusterName ++ "]"

/-- The per-cluster loop of `Vaex.refresh_datasources`.  `result` is the
oracle for the external `cluster.refresh_datasources(refreshAll=...)` call
(`.error e` means the call raised with message `e`); `now` models
`datetime.now()`.  After the loop the session is committed and the
datasource list is the redirect target; on the first failure the loop stops
with a danger flash, a log entry and a redirect to the cluster list. -/
def refreshLoop (refreshAll : Bool) (now : Nat)
    (result : VaexCluster → Except String Unit) :
    List VaexCluster → List Effect
  | [] => [.commit, .redirect "/vaexdatasourcemodelview/list/"]
  | c :: rest =>
    .refreshCall c.cluster_name refreshAll ::
      match result c with
      | .error e =>
        [.flashDanger (refreshErrorMsg c.cluster_name e),
         .logException e,
         .redirect "/vaexclustermodelview/list/"]
      | .ok _ =>
        .setTimestamp c.cluster_name now ::
          .flashInfo (refreshSuccessMsg c.cluster_name) ::
            refreshLoop refreshAll now result rest

/-- `Vaex.refresh_datasources`: iterates the clusters loaded from the
session and runs the per-cluster refresh loop. -/
def Vaex.refresh_datasources (refreshAll : Bool) (now : Nat)
    (clusters : List VaexCluster)
    (result : VaexCluster → Except String Unit) : List Effect :=
  refreshLoop refreshAll now result clusters

/-- `Vaex.scan_new_datasources`: delegates to `refresh_datasources` with
`refreshAll=False`. -/
def Vaex.scan_new_datasources (now : Nat) (clusters : List VaexCluster)
    (result : VaexCluster → Except String Unit) : List Effect :=
  Vaex.refresh_datasources false now clusters result

/-- The effects a single successfully refreshed cluster contributes to the
trace: the refresh call, the timestamp assignment, the success flash. -/
def successEffects (refreshAll : Bool) (now : Nat) (c : VaexCluster) :
    List Effect :=
  [.refreshCall c.cluster_name refreshAll,
   .setTimestamp c.cluster_name now,
   .flashInfo (refreshSuccessMsg c.cluster_name)]

/-- Concatenation of the per-element effect lists, in order. -/
def flatTrace (f : VaexCluster → List Effect) : List VaexCluster → List Effect
  | [] => []
  | c :: rest => f c ++ flatTrace f rest

/-- A Metric record as the metric view hooks see it.  Modelled from the
spec: the ORM model class `VaexMetric` is outside this file; `perm` stands
for `get_perm()`, the permission key derived from the metric's identity. -/
structure VaexMetric where
  metric_name : String
  is_restricted : Bool
  perm : String
deriving DecidableEq, Repr

/-- A Datasource record as the datasource view hooks see it.  Modelled from
the spec: the ORM model class `VaexDatasource` is outside this file; `perm`
stands for `get_perm()`, `schema` is the optional schema name (Python
truthiness: `none` and the empty string are falsy), `schema_perm` the schema
permission string, and `is_restricted` the restricted flag the spec speaks
of. -/
structure VaexDatasource where
  name : String
  is_restricted : Bool
  perm : String
  schema : Option String
  schema_perm : String
deriving DecidableEq, Repr

/-- One observable effect of a CRUD hook: a `security_manager.merge_perm`
call, a model-method call, or the framework persisting the record. -/
inductive HookEffect where
  | mergePerm (permType : String) (key : String) : HookEffect
  | refreshMetrics : HookEffect
  | updateMetadata : HookEffect
  | persist : HookEffect
deriving DecidableEq, Repr

/-- `VaexMetricInlineView.post_add`: registers a metric-access permission
when the metric is restricted, otherwise does nothing. -/
def VaexMetricInlineView.post_add (metric : VaexMetric) : List HookEffect :=
  if metric.is_restricted then [.mergePerm "metric_access" metric.perm] else []

/-- `VaexMetricInlineView.post_update`: same body as `post_add`. -/
def VaexMetricInlineView.post_update (metric : VaexMetric) : List HookEffect :=
  if metric.is_restricted then [.mergePerm "metric_access" metric.perm] else []

/-- `VaexDatasourceModelView.post_add`: refreshes metrics, registers the
datasource-access permission unconditionally, and registers a schema-access
permission when the schema is truthy. -/
def VaexDatasourceModelView.post_add (ds : VaexDatasource) : List HookEffect :=
  .refreshMetrics ::
    .mergePerm "datasource_access" ds.perm ::
      match ds.schema with
      | none => []
      | some sch => if sch = "" then [] else [.mergePerm "schema_access" ds.schema_perm]

/-- `VaexDatasourceModelView.post_update`: only calls
`datasource.update_metadata()`; it registers no permission. -/
def VaexDatasourceModelView.post_update (_ds : VaexDatasource) : List HookEffect :=
  [.updateMetadata]

/-- `VaexClusterModelView.pre_add`: registers the database-access permission
for the cluster's permission string. -/
def VaexClusterModelView.pre_add (cluster : VaexCluster) : List HookEffect :=
  [.mergePerm "database_access" cluster.perm]

/-- `VaexClusterModelView.pre_update`: delegates to `pre_add`. -/
def VaexClusterModelView.pre_update (cluster : VaexCluster) : List HookEffect :=
  VaexClusterModelView.pre_add cluster

/-- Modelled from the spec: the framework runs a record's pre-hook, then
persists the record, then runs the post-hook; the hook effects of an add or
update are therefore the pre-hook trace, then `persist`, then the post-hook
trace. -/
def crudTrace (pre : List HookEffect) (post : List HookEffect) : List HookEffect :=
  pre ++ HookEffect.persist :: post

/-- The deletion-relevant configuration a view class declares: whether it
mixes in `DeleteMixin` (the confirmation-guarded delete action) and the
explicit `can_delete` class attribute when one is set. -/
structure ViewSurface where
  uses_delete_mixin : Bool
  can_delete_attr : Option Bool
deriving DecidableEq, Repr

/-- `VaexColumnInlineView`: no `DeleteMixin`, `can_delete = False`. -/
def VaexColumnInlineView.surface : ViewSurface := ⟨false, some false⟩

/-- `VaexMetricInlineView`: no `DeleteMixin`, no `can_delete` attribute. -/
def VaexMetricInlineView.surface : ViewSurface := ⟨false, none⟩

/-- `VaexClusterModelView`: mixes in `DeleteMixin`. -/
def VaexClusterModelView.surface : ViewSurface := ⟨true, none⟩

/-- `VaexDatasourceModelView`: mixes in `DeleteMixin`. -/
def VaexDatasourceModelView.surface : ViewSurface := ⟨true, none⟩

/-- Modelled from the spec: deletion through an admin screen is available
exactly when the view mixes in the confirmation-guarded `DeleteMixin` and
does not set `can_delete = False`; the inline views, which lack the mixin,
expose no deletion. -/
def deletionPermitted (v : ViewSurface) : Bool :=
  v.uses_delete_mixin && v.can_delete_attr.getD true

theorem JValue.eqStr_iff (v : JValue) (s : String) :
    v.eqStr s = true ↔ v = JValue.str s := by
  cases v <;> simp [JValue.eqStr]

example :
    VaexColumnInlineView.pre_update
      (fun _ => .ok (.obj [("outputName", .str "revenue"), ("dimension", .str "amount")]))
      ⟨"revenue", some "S"⟩ = .ok () := by rfl

example :
    VaexColumnInlineView.pre_update
      (fun _ => .ok (.obj [("outputName", .str "cost"), ("dimension", .str "amount")]))
      ⟨"revenue", some "S"⟩
    = .error (.outputNameMismatch (.str "cost") "revenue") := by rfl

example :
    VaexColumnInlineView.pre_update
      (fun _ => .ok (.arr [.str "a", .str "b"]))
      ⟨"revenue", some "S"⟩ = .error .notAnObject := by rfl

/-- Characterization of the passing runs of the dimension-spec validation:
used both for the validator's correctness statement and for the add/update
asymmetry. -/
theorem pre_update_ok_iff
    (parse : String → Except String JValue) (col : VaexColumn) :
    VaexColumnInlineView.pre_update parse col = Except.ok () ↔
      (col.dimension_spec_json = none ∨ col.dimension_spec_json = some "" ∨
        ∃ s kvs, col.dimension_spec_json = some s ∧
          parse s = Except.ok (JValue.obj kvs) ∧
          (jlookup "dimension" kvs).isSome = true ∧
          jlookup "outputName" kvs = some (JValue.str col.column_name)) := by
  cases h : col.dimension_spec_json with
  | none => simp [VaexColumnInlineView.pre_update, h]
  | some s =>
    rcases eq_or_ne s "" with rfl | hs
    · simp [VaexColumnInlineView.pre_update, h]
    · constructor
      · intro hok
        simp only [VaexColumnInlineView.pre_update, h, if_neg hs] at hok
        cases hp : parse s with
        | error e =>
          simp only [hp] at hok
          exact Except.noConfusion hok
        | ok v =>
          cases v with
          | obj kvs =>
            simp only [hp] at hok
            cases ho : jlookup "outputName" kvs with
            | none =>
              simp only [ho] at hok
              exact Except.noConfusion hok
            | some outName =>
              simp only [ho] at hok
              cases hd : jlookup "dimension" kvs with
              | none =>
                simp only [hd] at hok
                exact Except.noConfusion hok
              | some d =>
                simp only [hd] at hok
                by_cases he : outName.eqStr col.column_name = true
                · obtain rfl : outName = JValue.str col.column_name :=
                    (JValue.eqStr_iff _ _).mp he
                  exact Or.inr (Or.inr ⟨s, kvs, rfl, hp, by rw [hd]; rfl, ho⟩)
                · rw [if_neg he] at hok
                  exact Except.noConfusion hok
          | null =>
            simp only [hp] at hok
            exact Except.noConfusion hok
          | bool b =>
            simp only [hp] at hok
            exact Except.noConfusion hok
          | num n =>
            simp only [hp] at hok
            exact Except.noConfusion hok
          | str t =>
            simp only [hp] at hok
            exact Except.noConfusion hok
          | arr xs =>
            simp only [hp] at hok
            exact Except.noConfusion hok
      · rintro (hno | hemp | ⟨s2, kvs, hs2, hp, hdim, ho⟩)
        · exact Option.noConfusion hno
        · injection hemp with he2
          exact absurd he2 hs
        · injection hs2 with hs2
          subst hs2
          obtain ⟨d, hd⟩ := Option.isSome_iff_exists.mp hdim
          simp [VaexColumnInlineView.pre_update, h, if_neg hs, hp, ho, hd,
            JValue.eqStr]

/-- C1: the dimension-spec validation run before an update passes iff the
spec string is absent or empty, or it parses as a JSON object containing a
`dimension` key and an `outputName` key whose value is exactly the column's
name (case-sensitive string equality). -/
theorem c1_dimension_spec_validation_iff
    (parse : String → Except String JValue) (col : VaexColumn) :
    VaexColumnInlineView.pre_update parse col = Except.ok () ↔
      (col.dimension_spec_json = none ∨ col.dimension_spec_json = some "" ∨
        ∃ s kvs, col.dimension_spec_json = some s ∧
          parse s = Except.ok (JValue.obj kvs) ∧
          (jlookup "dimension" kvs).isSome = true ∧
          jlookup "outputName" kvs = some (JValue.str col.column_name)) :=
  pre_update_ok_iff parse col

/-- Membership in a concatenated per-cluster trace comes from one of the
clusters. -/
theorem mem_flatTrace (f : VaexCluster → List Effect) (x : Effect) :
    ∀ l : List VaexCluster, (x ∈ flatTrace f l ↔ ∃ c ∈ l, x ∈ f c)
  | [] => by simp [flatTrace]
  | c :: cs => by
    simp [flatTrace, List.mem_append, mem_flatTrace f x cs]

/-- Splitting the refresh loop across a prefix of clusters whose refresh
calls all succeed. -/
theorem refreshLoop_append_ok (refreshAll : Bool) (now : Nat)
    (result : VaexCluster → Except String Unit) :
    ∀ pre rest : List VaexCluster, (∀ d ∈ pre, result d = Except.ok ()) →
      refreshLoop refreshAll now result (pre ++ rest)
        = flatTrace (successEffects refreshAll now) pre ++
          refreshLoop refreshAll now result rest
  | [], rest, _ => by simp [flatTrace]
  | c :: cs, rest, hpre => by
    have hc : result c = Except.ok () := hpre c (List.mem_cons_self c cs)
    have ih := refreshLoop_append_ok refreshAll now result cs rest
      (fun d hd => hpre d (List.mem_cons_of_mem c hd))
    simp only [List.cons_append, refreshLoop, hc, flatTrace, successEffects,
      List.append_eq, ih, List.append_assoc, List.nil_append]

/-- The success flash message determines the cluster name. -/
theorem refreshSuccessMsg_inj_iff (a b : String) :
    refreshSuccessMsg a = refreshSuccessMsg b ↔ a = b := by
  constructor
  · intro h
    have h2 : (refreshSuccessMsg a).data = (refreshSuccessMsg b).data :=
      congrArg String.data h
    simp only [refreshSuccessMsg, String.data_append] at h2
    rw [List.append_assoc, List.append_assoc] at h2
    have h3 := List.append_cancel_right (List.append_cancel_left h2)
    cases a; cases b; exact congrArg String.mk h3
  · rintro rfl; rfl

/-- No commit occurs among the per-cluster success effects. -/
theorem count_commit_flatTrace (refreshAll : Bool) (now : Nat) :
    ∀ l : List VaexCluster,
      (flatTrace (successEffects refreshAll now) l).count Effect.commit = 0
  | [] => by simp [flatTrace]
  | c :: cs => by
    simp [flatTrace, successEffects, List.count_append, List.count_cons,
      count_commit_flatTrace refreshAll now cs]

/-- Each cluster contributes exactly its own refresh call to the success
trace. -/
theorem count_refreshCall_flatTrace (refreshAll : Bool) (now : Nat)
    (name : String) :
    ∀ l : List VaexCluster,
      (flatTrace (successEffects refreshAll now) l).count
          (Effect.refreshCall name refreshAll)
        = (l.map VaexCluster.cluster_name).count name
  | [] => by simp [flatTrace]
  | c :: cs => by
    by_cases hn : c.cluster_name = name
    · simp [flatTrace, successEffects, List.count_append, List.count_cons,
        count_refreshCall_flatTrace refreshAll now name cs, hn]
    · simp [flatTrace, successEffects, List.count_append, List.count_cons,
        count_refreshCall_flatTrace refreshAll now name cs, hn]

/-- Each cluster contributes exactly its own timestamp assignment to the
success trace. -/
theorem count_setTimestamp_flatTrace (refreshAll : Bool) (now : Nat)
    (name : String) :
    ∀ l : List VaexCluster,
      (flatTrace (successEffects refreshAll now) l).count
          (Effect.setTimestamp name now)
        = (l.map VaexCluster.cluster_name).count name
  | [] => by simp [flatTrace]
  | c :: cs => by
    by_cases hn : c.cluster_name = name
    · simp [flatTrace, successEffects, List.count_append, List.count_cons,
        count_setTimestamp_flatTrace refreshAll now name cs, hn]
    · simp [flatTrace, successEffects, List.count_append, List.count_cons,
        count_setTimestamp_flatTrace refreshAll now name cs, hn]

/-- Each cluster contributes exactly its own success flash to the success
trace. -/
theorem count_flashInfo_flatTrace (refreshAll : Bool) (now : Nat)
    (name : String) :
    ∀ l : List VaexCluster,
      (flatTrace (successEffects refreshAll now) l).count
          (Effect.flashInfo (refreshSuccessMsg name))
        = (l.map VaexCluster.cluster_name).count name
  | [] => by simp [flatTrace]
  | c :: cs => by
    by_cases hn : c.cluster_name = name
    · simp [flatTrace, successEffects, List.count_append, List.count_cons,
        count_flashInfo_flatTrace refreshAll now name cs, hn,
        refreshSuccessMsg_inj_iff]
    · simp [flatTrace, successEffects, List.count_append, List.count_cons,
        count_flashInfo_flatTrace refreshAll now name cs, hn,
        refreshSuccessMsg_inj_iff]

/-- C2: when the clusters before `c` all refresh successfully and `c`'s
refresh call raises, the endpoint's trace is exactly: the success effects of
the clusters before `c` (timestamp update and success flash each), then
`c`'s refresh call, a danger flash naming `c` and the error, the exception
log, and a redirect to the cluster list; no commit is performed and no
cluster after `c` is ever attempted. -/
theorem c2_refresh_failure_trace
    (refreshAll : Bool) (now : Nat) (result : VaexCluster → Except String Unit)
    (pre : List VaexCluster) (c : VaexCluster) (post : List VaexCluster)
    (e : String)
    (hpre : ∀ d ∈ pre, result d = Except.ok ())
    (hc : result c = Except.error e) :
    Vaex.refresh_datasources refreshAll now (pre ++ c :: post) result
      = flatTrace (successEffects refreshAll now) pre ++
        [Effect.refreshCall c.cluster_name refreshAll,
         Effect.flashDanger (refreshErrorMsg c.cluster_name e),
         Effect.logException e,
         Effect.redirect "/vaexclustermodelview/list/"] ∧
    Effect.commit ∉
      Vaex.refresh_datasources refreshAll now (pre ++ c :: post) result ∧
    ∀ d ∈ post,
      d.cluster_name ∉ (pre ++ [c]).map VaexCluster.cluster_name →
      ∀ b, Effect.refreshCall d.cluster_name b ∉
        Vaex.refresh_datasources refreshAll now (pre ++ c :: post) result := by
  have htrace :
      Vaex.refresh_datasources refreshAll now (pre ++ c :: post) result
        = flatTrace (successEffects refreshAll now) pre ++
          [Effect.refreshCall c.cluster_name refreshAll,
           Effect.flashDanger (refreshErrorMsg c.cluster_name e),
           Effect.logException e,
           Effect.redirect "/vaexclustermodelview/list/"] := by
    unfold Vaex.refresh_datasources
    rw [refreshLoop_append_ok refreshAll now result pre (c :: post) hpre]
    simp only [refreshLoop, hc]
  refine ⟨htrace, ?_, ?_⟩
  · rw [htrace]
    intro hmem
    rcases List.mem_append.mp hmem with hm | hm
    · rcases (mem_flatTrace _ _ _).mp hm with ⟨d2, hd2, hmd⟩
      simp [successEffects] at hmd
    · simp at hm
  · intro d hd hname b
    rw [htrace]
    intro hmem
    rcases List.mem_append.mp hmem with hm | hm
    · rcases (mem_flatTrace _ _ _).mp hm with ⟨d2, hd2, hmd⟩
      simp only [successEffects, List.mem_cons, List.not_mem_nil, or_false]
        at hmd
      rcases hmd with hmd | hmd | hmd
      · injection hmd with h1 h2
        exact hname (by
          rw [h1]
          exact List.mem_map_of_mem _ (List.mem_append.mpr (Or.inl hd2)))
      · exact Effect.noConfusion hmd
      · exact Effect.noConfusion hmd
    · simp only [List.mem_cons, List.not_mem_nil, or_false] at hm
      rcases hm with hm | hm | hm | hm
      · injection hm with h1 h2
        exact hname (by rw [h1]; simp)
      · exact Effect.noConfusion hm
      · exact Effect.noConfusion hm
      · exact Effect.noConfusion hm

/-- Witness for C2: clusters A, B, C where B fails: A is refreshed and
flashed, B's failure is flashed, logged and redirects to the cluster list,
C is untouched and no commit appears. -/
theorem c2_refresh_failure_trace_witness :
    Vaex.refresh_datasources true 7
      [⟨"A", "pA", none⟩, ⟨"B", "pB", none⟩, ⟨"C", "pC", none⟩]
      (fun d => if d.cluster_name = "B" then Except.error "boom" else Except.ok ())
      = flatTrace (successEffects true 7) [⟨"A", "pA", none⟩] ++
        [Effect.refreshCall "B" true,
         Effect.flashDanger (refreshErrorMsg "B" "boom"),
         Effect.logException "boom",
         Effect.redirect "/vaexclustermodelview/list/"] :=
  (c2_refresh_failure_trace true 7
    (fun d => if d.cluster_name = "B" then Except.error "boom" else Except.ok ())
    [⟨"A", "pA", none⟩] ⟨"B", "pB", none⟩ [⟨"C", "pC", none⟩] "boom"
    (by intro d hd; rw [List.mem_singleton] at hd; subst hd; rfl) rfl).1

/-- C3: when every cluster's refresh call succeeds, the trace is exactly the
per-cluster success effects followed by one commit and a redirect to the
datasource list; under distinct cluster names each cluster's refresh call,
timestamp assignment and success flash occur exactly once, and exactly one
commit is performed. -/
theorem c3_refresh_success_trace
    (refreshAll : Bool) (now : Nat) (result : VaexCluster → Except String Unit)
    (clusters : List VaexCluster)
    (hok : ∀ d ∈ clusters, result d = Except.ok ())
    (hnodup : (clusters.map VaexCluster.cluster_name).Nodup) :
    Vaex.refresh_datasources refreshAll now clusters result
      = flatTrace (successEffects refreshAll now) clusters ++
        [Effect.commit, Effect.redirect "/vaexdatasourcemodelview/list/"] ∧
    (Vaex.refresh_datasources refreshAll now clusters result).count
        Effect.commit = 1 ∧
    ∀ c ∈ clusters,
      (Vaex.refresh_datasources refreshAll now clusters result).count
          (Effect.refreshCall c.cluster_name refreshAll) = 1 ∧
      (Vaex.refresh_datasources refreshAll now clusters result).count
          (Effect.setTimestamp c.cluster_name now) = 1 ∧
      (Vaex.refresh_datasources refreshAll now clusters result).count
          (Effect.flashInfo (refreshSuccessMsg c.cluster_name)) = 1 := by
  have htrace :
      Vaex.refresh_datasources refreshAll now clusters result
        = flatTrace (successEffects refreshAll now) clusters ++
          [Effect.commit, Effect.redirect "/vaexdatasourcemodelview/list/"] := by
    unfold Vaex.refresh_datasources
    have h2 := refreshLoop_append_ok refreshAll now result clusters [] hok
    rw [List.append_nil] at h2
    rw [h2]
    simp [refreshLoop]
  have hone : ∀ c ∈ clusters,
      (clusters.map VaexCluster.cluster_name).count c.cluster_name = 1 :=
    fun c hcm =>
      List.count_eq_one_of_mem hnodup (List.mem_map_of_mem _ hcm)
  refine ⟨htrace, ?_, ?_⟩
  · rw [htrace, List.count_append, count_commit_flatTrace]
    simp [List.count_cons]
  · intro c hcm
    refine ⟨?_, ?_, ?_⟩
    · rw [htrace, List.count_append, count_refreshCall_flatTrace]
      rw [hone c hcm]
      simp [List.count_cons]
    · rw [htrace, List.count_append, count_setTimestamp_flatTrace]
      rw [hone c hcm]
      simp [List.count_cons]
    · rw [htrace, List.count_append, count_flashInfo_flatTrace]
      rw [hone c hcm]
      simp [List.count_cons]

/-- Witness for C3: two succeeding clusters commit exactly once. -/
theorem c3_refresh_success_trace_witness :
    (Vaex.refresh_datasources true 7
        [⟨"A", "pA", none⟩, ⟨"B", "pB", none⟩]
        (fun _ => Except.ok ())).count Effect.commit = 1 :=
  (c3_refresh_success_trace true 7 (fun _ => Except.ok ())
    [⟨"A", "pA", none⟩, ⟨"B", "pB", none⟩] (fun d _ => rfl) (by decide)).2.1

/-- C4: the validation checks run in a fixed order, each failure reported by
its own distinct error: parse failure (carrying the parse error text),
non-object result, missing `outputName`, missing `dimension`, and finally a
mismatching `outputName` (reporting both values); the first failing check
determines the error. -/
theorem c4_validation_error_order
    (parse : String → Except String JValue) (col : VaexColumn) (s : String)
    (h : col.dimension_spec_json = some s) (hs : s ≠ "") :
    (∀ e, parse s = Except.error e →
      VaexColumnInlineView.pre_update parse col =
        Except.error (SpecError.invalidJson e)) ∧
    (∀ v, parse s = Except.ok v → (∀ kvs, v ≠ JValue.obj kvs) →
      VaexColumnInlineView.pre_update parse col =
        Except.error SpecError.notAnObject) ∧
    (∀ kvs, parse s = Except.ok (JValue.obj kvs) →
      jlookup "outputName" kvs = none →
      VaexColumnInlineView.pre_update parse col =
        Except.error SpecError.missingOutputName) ∧
    (∀ kvs outName, parse s = Except.ok (JValue.obj kvs) →
      jlookup "outputName" kvs = some outName →
      jlookup "dimension" kvs = none →
      VaexColumnInlineView.pre_update parse col =
        Except.error SpecError.missingDimension) ∧
    (∀ kvs outName d, parse s = Except.ok (JValue.obj kvs) →
      jlookup "outputName" kvs = some outName →
      jlookup "dimension" kvs = some d →
      outName ≠ JValue.str col.column_name →
      VaexColumnInlineView.pre_update parse col =
        Except.error (SpecError.outputNameMismatch outName col.column_name)) := by
  refine ⟨?_, ?_, ?_, ?_, ?_⟩
  · intro e hp
    simp [VaexColumnInlineView.pre_update, h, if_neg hs, hp]
  · intro v hp hv
    cases v with
    | obj kvs => exact absurd rfl (hv kvs)
    | null => simp [VaexColumnInlineView.pre_update, h, if_neg hs, hp]
    | bool b => simp [VaexColumnInlineView.pre_update, h, if_neg hs, hp]
    | num n => simp [VaexColumnInlineView.pre_update, h, if_neg hs, hp]
    | str t => simp [VaexColumnInlineView.pre_update, h, if_neg hs, hp]
    | arr xs => simp [VaexColumnInlineView.pre_update, h, if_neg hs, hp]
  · intro kvs hp ho
    simp [VaexColumnInlineView.pre_update, h, if_neg hs, hp, ho]
  · intro kvs outName hp ho hd
    simp [VaexColumnInlineView.pre_update, h, if_neg hs, hp, ho, hd]
  · intro kvs outName d hp ho hd hne
    simp only [VaexColumnInlineView.pre_update, h, if_neg hs, hp, ho, hd]
    rw [if_neg (fun hc => hne ((JValue.eqStr_iff _ _).mp hc))]

/-- Witness for C4: a column named "revenue" whose spec parses to an object
with outputName "cost" fails with the mismatch error reporting both
values. -/
theorem c4_validation_error_order_witness :
    VaexColumnInlineView.pre_update
      (fun _ => Except.ok (JValue.obj
        [("outputName", JValue.str "cost"), ("dimension", JValue.str "amount")]))
      ⟨"revenue", some "SPEC"⟩
    = Except.error (SpecError.outputNameMismatch (JValue.str "cost") "revenue") :=
  (c4_validation_error_order
      (fun _ => Except.ok (JValue.obj
        [("outputName", JValue.str "cost"), ("dimension", JValue.str "amount")]))
      ⟨"revenue", some "SPEC"⟩ "SPEC" rfl (by decide)).2.2.2.2
    [("outputName", JValue.str "cost"), ("dimension", JValue.str "amount")]
    (JValue.str "cost") (JValue.str "amount") rfl rfl rfl
    (by intro hc; injection hc with hc2; exact absurd hc2 (by decide))

/-- C5: the dimension-spec validation runs only on update, never on add:
whenever a column's spec string is invalid (fails the pass condition of the
validator), the add path still raises no error while the update path raises
one. -/
theorem c5_validation_only_on_update
    (parse : String → Except String JValue) (col : VaexColumn)
    (hbad : ¬ (col.dimension_spec_json = none ∨
        col.dimension_spec_json = some "" ∨
        ∃ s kvs, col.dimension_spec_json = some s ∧
          parse s = Except.ok (JValue.obj kvs) ∧
          (jlookup "dimension" kvs).isSome = true ∧
          jlookup "outputName" kvs = some (JValue.str col.column_name))) :
    VaexColumnInlineView.pre_add col = Except.ok () ∧
    ∃ e, VaexColumnInlineView.pre_update parse col = Except.error e := by
  refine ⟨rfl, ?_⟩
  cases hu : VaexColumnInlineView.pre_update parse col with
  | error e => exact ⟨e, rfl⟩
  | ok u =>
    cases u
    exact absurd ((pre_update_ok_iff parse col).mp hu) hbad

/-- Witness for C5: a column whose spec string does not parse passes the add
path and fails the update path. -/
theorem c5_validation_only_on_update_witness :
    VaexColumnInlineView.pre_add ⟨"revenue", some "not json"⟩ = Except.ok () ∧
    ∃ e, VaexColumnInlineView.pre_update (fun _ => Except.error "Expecting value")
      ⟨"revenue", some "not json"⟩ = Except.error e :=
  c5_validation_only_on_update (fun _ => Except.error "Expecting value")
    ⟨"revenue", some "not json"⟩ (by simp)

/-- C6: the metric view's add and update hooks register exactly one
metric-access permission, keyed by the metric's permission string, when the
metric is restricted, and register nothing when it is not. -/
theorem c6_restricted_metric_perm (m : VaexMetric) :
    (m.is_restricted = true →
      VaexMetricInlineView.post_add m =
        [HookEffect.mergePerm "metric_access" m.perm] ∧
      VaexMetricInlineView.post_update m =
        [HookEffect.mergePerm "metric_access" m.perm]) ∧
    (m.is_restricted = false →
      VaexMetricInlineView.post_add m = [] ∧
      VaexMetricInlineView.post_update m = []) := by
  cases hr : m.is_restricted <;>
    simp [VaexMetricInlineView.post_add, VaexMetricInlineView.post_update, hr]

/-- Witness for C6: a restricted metric registers its permission once on
add and once on update; an unrestricted one registers nothing. -/
theorem c6_restricted_metric_perm_witness :
    (VaexMetricInlineView.post_add ⟨"m", true, "pm"⟩ =
        [HookEffect.mergePerm "metric_access" "pm"] ∧
      VaexMetricInlineView.post_update ⟨"m", true, "pm"⟩ =
        [HookEffect.mergePerm "metric_access" "pm"]) ∧
    (VaexMetricInlineView.post_add ⟨"n", false, "pn"⟩ = [] ∧
      VaexMetricInlineView.post_update ⟨"n", false, "pn"⟩ = []) :=
  ⟨(c6_restricted_metric_perm ⟨"m", true, "pm"⟩).1 rfl,
   (c6_restricted_metric_perm ⟨"n", false, "pn"⟩).2 rfl⟩

/-- Counterexample to C7: a datasource whose restricted flag is false still
gets a datasource-access permission registered by the add hook, so the
permission registration is not conditioned on the restricted flag. -/
theorem c7_counterexample :
    (VaexDatasource.mk "d" false "pd" none "sp").is_restricted = false ∧
    HookEffect.mergePerm "datasource_access" "pd" ∈
      VaexDatasourceModelView.post_add (VaexDatasource.mk "d" false "pd" none "sp") := by
  constructor
  · rfl
  · simp [VaexDatasourceModelView.post_add]

/-- C7 amended: a successful add of a Datasource always registers the
datasource-access permission (plus a schema-access permission when the
schema is set), regardless of any restricted flag, while a successful
update registers no permission at all (it only updates metadata). -/
theorem c7_datasource_perm_amended (ds : VaexDatasource) :
    HookEffect.mergePerm "datasource_access" ds.perm ∈
      VaexDatasourceModelView.post_add ds ∧
    (∀ t k, HookEffect.mergePerm t k ∉ VaexDatasourceModelView.post_update ds) := by
  constructor
  · simp [VaexDatasourceModelView.post_add]
  · intro t k
    simp [VaexDatasourceModelView.post_update]

/-- C8: the cluster and datasource screens permit deletion through the
confirmation-guarded mixin, while the column and metric inline screens
expose no deletion. -/
theorem c8_deletion_surface :
    deletionPermitted VaexClusterModelView.surface = true ∧
    VaexClusterModelView.surface.uses_delete_mixin = true ∧
    deletionPermitted VaexDatasourceModelView.surface = true ∧
    VaexDatasourceModelView.surface.uses_delete_mixin = true ∧
    deletionPermitted VaexColumnInlineView.surface = false ∧
    deletionPermitted VaexMetricInlineView.surface = false := by
  decide

/-- C9: the scan-new-datasources endpoint is exactly the refresh endpoint
invoked with refreshAll=false: for every cluster list, timestamp clock and
refresh outcome the two produce identical effect traces. -/
theorem c9_scan_is_refresh_new_only (now : Nat) (clusters : List VaexCluster)
    (result : VaexCluster → Except String Unit) :
    Vaex.scan_new_datasources now clusters result
      = Vaex.refresh_datasources false now clusters result := rfl

/-- C10: adding or updating a cluster registers the database-access
permission for the cluster's permission string unconditionally, and the
registration happens in the pre-hook, i.e. before the record is
persisted. -/
theorem c10_cluster_perm_pre_hooks (cluster : VaexCluster) :
    crudTrace (VaexClusterModelView.pre_add cluster) []
      = [HookEffect.mergePerm "database_access" cluster.perm,
         HookEffect.persist] ∧
    crudTrace (VaexClusterModelView.pre_update cluster) []
      = [HookEffect.mergePerm "database_access" cluster.perm,
         HookEffect.persist] :=
  ⟨rfl, rfl⟩
